import Mathlib

/-!
Shallow embedding of the clinic appointment-booking assistant
(calendar store, datetime parser, appointment service, intent detector,
dialogue orchestrator) and proofs about it.

Timestamps are modelled as minutes since 0001-01-01 00:00 in the clinic's
local timezone (a `Nat`).  Day 0 (0001-01-01, proleptic Gregorian) is a
Monday, so a timestamp's weekday in Python's convention (`0 = Monday`) is
`(t / 1440) % 7`.  File I/O (the JSON store) is modelled by threading the
appointment list through every operation; `save_appointments` is assumed
to succeed.
-/

/-! ## Civil-date arithmetic -/

def isLeap (y : Nat) : Bool := (y % 4 == 0 && y % 100 != 0) || y % 400 == 0

def daysInMonth (y m : Nat) : Nat :=
  if m = 2 then (if isLeap y then 29 else 28)
  else if m = 4 ∨ m = 6 ∨ m = 9 ∨ m = 11 then 30
  else 31

def daysBeforeMonth (y m : Nat) : Nat :=
  (List.range (m - 1)).foldl (fun acc i => acc + daysInMonth y (i + 1)) 0

/-- Days from 0001-01-01 (proleptic Gregorian) to the given civil date. -/
def daysFromCivil (y m d : Nat) : Nat :=
  365 * (y - 1) + (y - 1) / 4 - (y - 1) / 100 + (y - 1) / 400
    + daysBeforeMonth y m + (d - 1)

/-- Inverse of `daysFromCivil` (Gregorian calendar decomposition). -/
def civilFromDays (z : Nat) : Nat × Nat × Nat :=
  let z' := z + 306
  let era := z' / 146097
  let doe := z' % 146097
  let yoe := (doe - doe / 1460 + doe / 36524 - doe / 146096) / 365
  let y0 := yoe + era * 400
  let doy := doe - (365 * yoe + yoe / 4 - yoe / 100)
  let mp := (5 * doy + 2) / 153
  let d := doy - (153 * mp + 2) / 5 + 1
  let m := if mp < 10 then mp + 3 else mp - 9
  (if m ≤ 2 then y0 + 1 else y0, m, d)

/-- A timestamp: minutes since 0001-01-01 00:00, clinic local time. -/
def mkTs (y m d h mi : Nat) : Nat := daysFromCivil y m d * 1440 + h * 60 + mi

/-- Python `datetime.weekday()`: 0 = Monday. -/
def weekdayOf (t : Nat) : Nat := t / 1440 % 7

def hourOf (t : Nat) : Nat := t % 1440 / 60

def minuteOf (t : Nat) : Nat := t % 60

def yearOf (t : Nat) : Nat := (civilFromDays (t / 1440)).1

def validDate (y m d : Nat) : Bool :=
  1 ≤ y && y ≤ 9999 && 1 ≤ m && m ≤ 12 && 1 ≤ d && d ≤ daysInMonth y m

/-! ## String helpers (Python substring containment, formatting) -/

def listStartsWith : List Char → List Char → Bool
  | [], _ => true
  | _ :: _, [] => false
  | a :: as, b :: bs => a == b && listStartsWith as bs

def listHasSub (sub : List Char) : List Char → Bool
  | [] => sub.isEmpty
  | l@(_ :: t) => listStartsWith sub l || listHasSub sub t

/-- Python `sub in s` (substring containment). -/
def strContains (s sub : String) : Bool := listHasSub sub.toList s.toList

/-- Python `str.lower()` (character-wise; kernel-reducible). -/
def strLower (s : String) : String := String.mk (s.toList.map Char.toLower)

def isSpaceC (c : Char) : Bool :=
  c == ' ' || c == '\t' || c == '\n' || c == '\r'

/-- Python `str.strip()`. -/
def strTrim (s : String) : String :=
  String.mk (((s.toList.dropWhile isSpaceC).reverse.dropWhile isSpaceC).reverse)

/-- Python `str.replace(c, '')` for a single-character pattern. -/
def filterChar (c : Char) (s : String) : String :=
  String.mk (s.toList.filter (fun x => x != c))

/-- Python `str.replace(a, b)` for single-character pattern and repl. -/
def mapChar (a b : Char) (s : String) : String :=
  String.mk (s.toList.map (fun x => if x == a then b else x))

def splitOnCharAux (c : Char) : List Char → List Char → List (List Char)
  | [], acc => [acc.reverse]
  | x :: xs, acc =>
    if x == c then acc.reverse :: splitOnCharAux c xs []
    else splitOnCharAux c xs (x :: acc)

/-- Python `str.split(c)` for a single-character separator. -/
def splitOnChar (c : Char) (s : String) : List String :=
  (splitOnCharAux c s.toList []).map String.mk

/-- `int(s)` on an all-digit string (`none` otherwise). -/
def digitsToNat? (s : String) : Option Nat :=
  if s.toList ≠ [] ∧ s.toList.all Char.isDigit then
    some (s.toList.foldl (fun acc c => acc * 10 + (c.toNat - 48)) 0)
  else none

def strEndsWith (s suffix : String) : Bool :=
  listStartsWith suffix.toList.reverse s.toList.reverse

def strDropRight (n : Nat) (s : String) : String :=
  String.mk (s.toList.take (s.toList.length - n))

def pad2 (n : Nat) : String := if n < 10 then "0" ++ toString n else toString n

/-- Python `strftime('%Y-%m-%d')` of a timestamp. -/
def fmtDate (t : Nat) : String :=
  let c := civilFromDays (t / 1440)
  toString c.1 ++ "-" ++ pad2 c.2.1 ++ "-" ++ pad2 c.2.2

/-- Python `strftime('%H:%M')` of a timestamp. -/
def fmtTimeHM (t : Nat) : String := pad2 (hourOf t) ++ ":" ++ pad2 (minuteOf t)

def dayTitle (wd : Nat) : String :=
  match wd with
  | 0 => "Monday" | 1 => "Tuesday" | 2 => "Wednesday" | 3 => "Thursday"
  | 4 => "Friday" | 5 => "Saturday" | _ => "Sunday"

/-- Python truthiness of an optional string (`None` and `""` are falsy). -/
def truthyS : Option String → Bool
  | none => false
  | some s => s != ""

def lookupStr : List (String × Nat) → String → Option Nat
  | [], _ => none
  | (k, v) :: rest, s => if s = k then some v else lookupStr rest s

/-! ## Data model: appointments and clinic configuration -/

/-- A persisted appointment record (`create_appointment` in
`services/calendar_service.py` builds exactly these fields). -/
structure Appointment where
  id : String
  patient_name : String
  patient_phone : String
  start_time : Nat
  end_time : Nat
  duration : Nat
  reason : String
  doctor_name : Option String
  created_at : Nat
  status : String
deriving DecidableEq, Repr

/-- The clinic configuration (`CLINIC_CONFIG`): working hours per weekday
(Python keys the dict by lowercase day name; here by weekday index,
`none` = closed) and the default appointment duration in minutes. -/
structure Config where
  working_hours : Nat → Option (Nat × Nat)
  appointment_duration : Nat

/-- Modelled from the spec: `CLINIC_CONFIG` is imported from `app.config`,
which is not present in the sources; the spec gives Monday-Friday 9:00-18:00,
Saturday 9:00-14:00, Sunday closed, default duration 30 minutes. -/
def CLINIC_CONFIG : Config where
  working_hours := fun wd =>
    if wd ≤ 4 then some (9, 18) else if wd = 5 then some (9, 14) else none
  appointment_duration := 30

/-! ## Calendar store: `check_availability` and CRUD -/

/-- Interval overlap test from `check_availability`:
`start_time < apt_end and end_time > apt_start`. -/
def overlapsB (s e : Nat) (apt : Appointment) : Bool :=
  s < apt.end_time && e > apt.start_time

/-- Conflict-scan predicate: skip the appointment being updated
(Python `if exclude_appointment_id and apt['id'] == exclude_appointment_id`,
note the truthiness test on the excluded id). -/
def conflictPred (s e : Nat) (excl : Option String) (apt : Appointment) : Bool :=
  !(truthyS excl && excl == some apt.id) && overlapsB s e apt

/-- First conflicting appointment in store order, if any. -/
def findConflict (store : List Appointment) (s e : Nat) (excl : Option String) :
    Option Appointment :=
  store.find? (conflictPred s e excl)

/-- Result dictionary of `check_availability`; absent keys are `none`.
`conflicting_time` holds the conflicting appointment's start timestamp
(the source formats it with `strftime('%I:%M %p')`). -/
structure Avail where
  available : Bool
  message : String
  reason : Option String
  conflicting_appointment_id : Option String
  conflicting_time : Option Nat
deriving DecidableEq, Repr

def check_availability (cfg : Config) (now : Nat) (store : List Appointment)
    (start : Nat) (durationArg : Option Nat) (excl : Option String) : Avail :=
  let duration := durationArg.getD cfg.appointment_duration
  let e := start + duration
  match findConflict store start e excl with
  | some apt =>
      { available := false
        message := "Time slot is already booked"
        reason := some "conflict"
        conflicting_appointment_id := some apt.id
        conflicting_time := some apt.start_time }
  | none =>
    match cfg.working_hours (weekdayOf start) with
    | none =>
        { available := false
          message := "Clinic closed on " ++ dayTitle (weekdayOf start)
          reason := some "closed"
          conflicting_appointment_id := none, conflicting_time := none }
    | some hours =>
      if hourOf start < hours.1 || hourOf start ≥ hours.2 then
        { available := false
          message := "Outside working hours (" ++ toString hours.1 ++ ":00-"
            ++ toString hours.2 ++ ":00)"
          reason := some "outside_hours"
          conflicting_appointment_id := none, conflicting_time := none }
      else if start < now then
        { available := false, message := "Cannot book in the past"
          reason := some "past"
          conflicting_appointment_id := none, conflicting_time := none }
      else
        { available := true, message := "Available", reason := none
          conflicting_appointment_id := none, conflicting_time := none }

/-- Uniform result dictionary for the service operations;
keys absent from a given Python dict are `none`. -/
structure Res where
  success : Bool
  message : String
  reason : Option String
  conflicting_time : Option Nat
  appointment_id : Option String
  appointment : Option Appointment
  appointments : Option (List Appointment)
  cancelled_appointment : Option Appointment
  missing_fields : Option (List String)
deriving DecidableEq, Repr

def mkRes (success : Bool) (message : String) : Res :=
  ⟨success, message, none, none, none, none, none, none, none⟩

def create_appointment (cfg : Config) (now : Nat) (store : List Appointment)
    (patient_name patient_phone : String) (start : Nat) (durationArg : Option Nat)
    (reason : String) (doctor_name : Option String) (freshId : String) :
    Res × List Appointment :=
  let duration := durationArg.getD cfg.appointment_duration
  let avail := check_availability cfg now store start (some duration) none
  if !avail.available then
    ({ mkRes false avail.message with
        reason := avail.reason, conflicting_time := avail.conflicting_time }, store)
  else
    let apt : Appointment :=
      { id := freshId, patient_name := patient_name, patient_phone := patient_phone
        start_time := start, end_time := start + duration, duration := duration
        reason := reason, doctor_name := doctor_name, created_at := now
        status := "confirmed" }
    ({ mkRes true "Appointment booked successfully" with
        appointment_id := some freshId, appointment := some apt },
      store ++ [apt])

def cancel_appointment (store : List Appointment) (appointment_id : String) :
    Res × List Appointment :=
  let filtered := store.filter (fun apt => apt.id != appointment_id)
  if filtered.length < store.length then
    (mkRes true "Appointment cancelled", filtered)
  else
    (mkRes false "Appointment not found", store)

/-- `update_appointment`'s update dictionary; keys present map to `some`. -/
structure AppointmentUpdates where
  start_time : Option Nat
  doctor_name : Option String
  reason : Option String
deriving DecidableEq, Repr

/-- The index-search loop of `update_appointment`. -/
def findWithIdx (p : Appointment → Bool) : List Appointment → Option (Nat × Appointment)
  | [] => none
  | a :: rest =>
    if p a then some (0, a) else (findWithIdx p rest).map (fun ix => (ix.1 + 1, ix.2))

/-- The `doctor_name`/`reason` part of `update_appointment`: each field is
overwritten only when the updates dictionary carries it. -/
def applyFieldUpdates (apt : Appointment) (upd : AppointmentUpdates) : Appointment :=
  let apt1 := match upd.doctor_name with
    | some d => { apt with doctor_name := some d }
    | none => apt
  match upd.reason with
  | some r => { apt1 with reason := r }
  | none => apt1

/-- Tail of `update_appointment`: apply doctor/reason updates and save. -/
def finishUpdate (store : List Appointment) (i : Nat) (apt : Appointment)
    (upd : AppointmentUpdates) : Res × List Appointment :=
  let apt2 := applyFieldUpdates apt upd
  ({ mkRes true "Appointment updated successfully" with appointment := some apt2 },
    store.set i apt2)

def update_appointment (cfg : Config) (now : Nat) (store : List Appointment)
    (appointment_id : String) (upd : AppointmentUpdates) : Res × List Appointment :=
  match findWithIdx (fun apt => apt.id == appointment_id) store with
  | none => (mkRes false "Appointment not found", store)
  | some (i, apt) =>
    match upd.start_time with
    | some t =>
      let duration := apt.duration
      let avail := check_availability cfg now store t (some duration) (some appointment_id)
      if !avail.available then
        ({ mkRes false avail.message with
            reason := avail.reason, conflicting_time := avail.conflicting_time }, store)
      else
        finishUpdate store i
          { apt with start_time := t, end_time := t + duration } upd
    | none => finishUpdate store i apt upd

def get_appointments_by_phone (store : List Appointment) (phone : String) :
    List Appointment :=
  store.filter (fun apt => apt.patient_phone == phone)

/-! ## Datetime parser (`parse_datetime` in `services/calendar_service.py`) -/

def month_names : List (String × Nat) :=
  [("january", 1), ("jan", 1), ("januray", 1), ("janury", 1),
   ("february", 2), ("feb", 2), ("febuary", 2), ("feburary", 2),
   ("march", 3), ("mar", 3),
   ("april", 4), ("apr", 4), ("apirl", 4),
   ("may", 5),
   ("june", 6), ("jun", 6),
   ("july", 7), ("jul", 7),
   ("august", 8), ("aug", 8),
   ("september", 9), ("sep", 9), ("sept", 9),
   ("october", 10), ("oct", 10), ("ocotber", 10), ("otober", 10),
   ("november", 11), ("nov", 11), ("novmber", 11),
   ("december", 12), ("dec", 12), ("decemeber", 12), ("decembre", 12),
   ("decmber", 12), ("decembe", 12)]

def day_names : List (String × Nat) :=
  [("monday", 0), ("tuesday", 1), ("wednesday", 2), ("thursday", 3),
   ("friday", 4), ("saturday", 5), ("sunday", 6),
   ("lundi", 0), ("mardi", 1), ("mercredi", 2), ("jeudi", 3),
   ("vendredi", 4), ("samedi", 5), ("dimanche", 6)]

/-- `days_ahead = target - now.weekday(); if days_ahead <= 0: days_ahead += 7`. -/
def rollForward (wd target : Nat) : Nat :=
  (let d : Int := (target : Int) - (wd : Int)
   if d ≤ 0 then d + 7 else d).toNat

/-- Scan of the space-split parts for a day number (`<= 31`), a year
(`> 1000`) and a month name; later parts overwrite earlier ones. -/
def scanParts (defaultYear : Nat) (parts : List String) : Option Nat × Option Nat × Nat :=
  parts.foldl
    (fun acc part =>
      if part ≠ "" && part.toList.all Char.isDigit then
        match digitsToNat? part with
        | some num =>
          if num ≤ 31 then (some num, acc.2.1, acc.2.2)
          else if num > 1000 then (acc.1, acc.2.1, num)
          else acc
        | none => acc
      else
        match lookupStr month_names part with
        | some m => (acc.1, some m, acc.2.2)
        | none => acc)
    (none, none, defaultYear)

/-- `strptime(date_str, '%Y-%m-%d')` (day index result). -/
def parseISOdate (s : String) : Option Nat :=
  match splitOnChar '-' s with
  | [ys, ms, ds] =>
    if ys ≠ "" && ys.toList.all Char.isDigit && ys.toList.length ≤ 4 &&
       ms ≠ "" && ms.toList.all Char.isDigit && ms.toList.length ≤ 2 &&
       ds ≠ "" && ds.toList.all Char.isDigit && ds.toList.length ≤ 2 then
      match digitsToNat? ys, digitsToNat? ms, digitsToNat? ds with
      | some y, some m, some d =>
        if validDate y m d then some (daysFromCivil y m d) else none
      | _, _, _ => none
    else none
  | _ => none

/-- One of the locale formats `%d/%m/%Y`, `%m/%d/%Y`, `%d-%m-%Y`:
`sep` is the separator and `dayFirst` the field order. -/
def parseSepDate (sep : Char) (dayFirst : Bool) (s : String) : Option Nat :=
  match splitOnChar sep s with
  | [a, b, ys] =>
    let dstr := if dayFirst then a else b
    let mstr := if dayFirst then b else a
    if dstr ≠ "" && dstr.toList.all Char.isDigit && dstr.toList.length ≤ 2 &&
       mstr ≠ "" && mstr.toList.all Char.isDigit && mstr.toList.length ≤ 2 &&
       ys ≠ "" && ys.toList.all Char.isDigit && ys.toList.length ≤ 4 then
      match digitsToNat? ys, digitsToNat? mstr, digitsToNat? dstr with
      | some y, some m, some d =>
        if validDate y m d then some (daysFromCivil y m d) else none
      | _, _, _ => none
    else none
  | _ => none

/-- The absolute-date branches of `parse_datetime` (day+month scan, ISO,
then the slash/dash locale formats); returns a day index. -/
def parseAbsolute (defaultYear : Nat) (dateLower dateOrig : String) : Option Nat :=
  let parts := (splitOnChar ' ' dateLower).filter (fun p => p ≠ "")
  let scan := scanParts defaultYear parts
  let dayTruthy := match scan.1 with | some d => d != 0 | none => false
  if dayTruthy && scan.2.1.isSome then
    match scan.1, scan.2.1 with
    | some d, some m =>
      if validDate scan.2.2 m d then some (daysFromCivil scan.2.2 m d) else none
    | _, _ => none
  else
    match parseISOdate dateOrig with
    | some z => some z
    | none =>
      match parseSepDate '/' true dateOrig with
      | some z => some z
      | none =>
        match parseSepDate '/' false dateOrig with
        | some z => some z
        | none => parseSepDate '-' true dateOrig

/-- The date half of `parse_datetime`; returns a day index
(days since 0001-01-01). -/
def parseDateDays (now : Nat) (date_str : String) : Option Nat :=
  let dl0 := strTrim (strLower date_str)
  let dl := if dl0 = "tomorow" ∨ dl0 = "tommorow" ∨ dl0 = "tommorrow"
            then "tomorrow" else dl0
  if dl = "today" ∨ dl = "aujourd\x27hui" then some (now / 1440)
  else if dl = "tomorrow" ∨ dl = "demain" then some (now / 1440 + 1)
  else if dl = "yesterday" ∨ dl = "hier" then some (now / 1440 - 1)
  else
    match lookupStr day_names dl with
    | some target => some (now / 1440 + rollForward (weekdayOf now) target)
    | none => parseAbsolute (yearOf now) dl date_str

/-- `strptime(s, '%H:%M')` (minutes within the day). -/
def parseHM (s : String) : Option Nat :=
  match splitOnChar ':' s with
  | [hs, ms] =>
    if hs ≠ "" && hs.toList.all Char.isDigit && hs.toList.length ≤ 2 &&
       ms ≠ "" && ms.toList.all Char.isDigit && ms.toList.length ≤ 2 then
      match digitsToNat? hs, digitsToNat? ms with
      | some h, some m => if h ≤ 23 && m ≤ 59 then some (h * 60 + m) else none
      | _, _ => none
    else none
  | _ => none

/-- `strptime(s, '%I:%M%p')` / `strptime(s, '%I%p')`. -/
def parse12 (s : String) : Option Nat :=
  let isPM := strEndsWith s "pm"
  if strEndsWith s "am" ∨ isPM = true then
    let core := strDropRight 2 s
    let conv := fun (h : Nat) =>
      if isPM then (if h = 12 then 12 else h + 12) else (if h = 12 then 0 else h)
    if strContains core ":" then
      match splitOnChar ':' core with
      | [hs, ms] =>
        if hs ≠ "" && hs.toList.all Char.isDigit && hs.toList.length ≤ 2 &&
           ms ≠ "" && ms.toList.all Char.isDigit && ms.toList.length ≤ 2 then
          match digitsToNat? hs, digitsToNat? ms with
          | some h, some m =>
            if 1 ≤ h && h ≤ 12 && m ≤ 59 then some (conv h * 60 + m) else none
          | _, _ => none
        else none
      | _ => none
    else
      if core ≠ "" && core.toList.all Char.isDigit && core.toList.length ≤ 2 then
        match digitsToNat? core with
        | some h => if 1 ≤ h && h ≤ 12 then some (conv h * 60) else none
        | none => none
      else none
  else none

/-- The time half of `parse_datetime`; returns minutes within the day. -/
def parseTimeMinutes (time_str : String) : Option Nat :=
  let tl := mapChar '.' ':' (filterChar ' ' (strTrim (strLower time_str)))
  if strContains tl "am" || strContains tl "pm" then
    parse12 tl
  else if strContains tl "h" then
    let tc := mapChar 'h' ':' tl
    let tc := if strContains tc ":" then tc else tc ++ ":00"
    parseHM tc
  else if strContains tl ":" then
    parseHM tl
  else
    match digitsToNat? tl with
    | none => none
    | some h =>
      if h = 12 then some (12 * 60)
      else if 1 ≤ h && h ≤ 6 then some ((h + 12) * 60)
      else if 7 ≤ h && h ≤ 11 then some (h * 60)
      else if 13 ≤ h && h ≤ 23 then some (h * 60)
      else none

/-- `parse_datetime(date_str, time_str)`: date resolved first, then the
time is substituted via `target_date.replace(hour=..., minute=...)`. -/
def parse_datetime (now : Nat) (date_str time_str : String) : Option Nat :=
  match parseDateDays now date_str, parseTimeMinutes time_str with
  | some day, some m => some (day * 1440 + m)
  | _, _ => none

/-! ## Appointment service (`services/appointment_service.py`) -/

/-- Stable insertion of an appointment into a start-time-sorted list. -/
def insertByStart (a : Appointment) : List Appointment → List Appointment
  | [] => [a]
  | b :: bs =>
    if a.start_time ≤ b.start_time then a :: b :: bs else b :: insertByStart a bs

/-- Python `list.sort(key=lambda x: x['start_time'])` (stable). -/
def sortByStart (l : List Appointment) : List Appointment :=
  l.foldr insertByStart []

def book_appointment (cfg : Config) (now : Nat) (freshId : String)
    (store : List Appointment) (patient_name patient_phone date time reason : String)
    (doctor_name : Option String) : Res × List Appointment :=
  match parse_datetime now date time with
  | none =>
    (mkRes false ("Could not parse date/time: " ++ date ++ " " ++ time), store)
  | some start_time =>
    let doctor := if truthyS doctor_name then doctor_name else some "Any available doctor"
    let reason1 := if reason = "" ∨ strTrim reason = "" then "General consultation" else reason
    create_appointment cfg now store patient_name patient_phone start_time none
      reason1 doctor freshId

def view_appointments (store : List Appointment) (phone : String) : Res :=
  let appointments := get_appointments_by_phone store phone
  if appointments.isEmpty then
    { mkRes true "No appointments found for this phone number" with
        appointments := some [] }
  else
    { mkRes true ("Found " ++ toString appointments.length ++ " appointment(s)") with
        appointments := some (sortByStart appointments) }

def cancel_appointment_by_phone (now : Nat) (store : List Appointment)
    (phone : String) : Res × List Appointment :=
  let appointments := get_appointments_by_phone store phone
  if appointments.isEmpty then
    (mkRes false "No appointments found for this phone number", store)
  else
    let upcoming := appointments.filter (fun apt => now < apt.start_time)
    if upcoming.isEmpty then
      (mkRes false "No upcoming appointments found", store)
    else
      match sortByStart upcoming with
      | [] => (mkRes false "No upcoming appointments found", store) -- unreachable
      | tgt :: _ =>
        let r := cancel_appointment store tgt.id
        if r.1.success then
          ({ mkRes true ("Cancelled appointment on " ++ toString tgt.start_time) with
              cancelled_appointment := some tgt }, r.2)
        else r

def update_appointment_by_phone (cfg : Config) (now : Nat) (store : List Appointment)
    (phone : String) (new_date new_time new_doctor new_reason : Option String) :
    Res × List Appointment :=
  let appointments := get_appointments_by_phone store phone
  if appointments.isEmpty then
    (mkRes false "No appointments found for this phone number", store)
  else
    let upcoming := appointments.filter (fun apt => now < apt.start_time)
    if upcoming.isEmpty then
      (mkRes false "No upcoming appointments found to modify", store)
    else
      match sortByStart upcoming with
      | [] => (mkRes false "No upcoming appointments found to modify", store) -- unreachable
      | tgt :: _ =>
        let parsed :=
          if truthyS new_date && truthyS new_time then
            match parse_datetime now (new_date.getD "") (new_time.getD "") with
            | none => none
            | some t => some (some t)
          else some none
        match parsed with
        | none =>
          (mkRes false ("Could not parse new date/time: " ++ new_date.getD ""
            ++ " " ++ new_time.getD ""), store)
        | some startUpd =>
          let upd : AppointmentUpdates :=
            { start_time := startUpd
              doctor_name := if truthyS new_doctor then new_doctor else none
              reason := if truthyS new_reason then new_reason else none }
          if upd.start_time.isNone && upd.doctor_name.isNone && upd.reason.isNone then
            (mkRes false
              "No changes specified. Please provide new date, time, doctor, or reason."
              , store)
          else
            update_appointment cfg now store tgt.id upd

/-! ## Intent detector (`mcp/intents.py`) -/

inductive Intent where
  | greet | book | edit | cancel | view | goodbye | unclear | help
deriving DecidableEq, Repr

def Intent.str : Intent → String
  | .greet => "greet" | .book => "book" | .edit => "edit" | .cancel => "cancel"
  | .view => "view" | .goodbye => "goodbye" | .unclear => "unclear" | .help => "help"

/-- Python `Intent(value)` (defined only on the enum's values). -/
def strToIntent (s : String) : Option Intent :=
  if s = "greet" then some .greet else if s = "book" then some .book
  else if s = "edit" then some .edit else if s = "cancel" then some .cancel
  else if s = "view" then some .view else if s = "goodbye" then some .goodbye
  else if s = "unclear" then some .unclear else if s = "help" then some .help
  else none

def INTENT_KEYWORDS : List (Intent × List String) :=
  [(.greet, ["hello", "hi", "hey", "good morning", "good afternoon",
             "bonjour", "salut", "salam"]),
   (.book, ["book", "schedule", "appointment", "make", "reserve",
            "réserver", "rendez-vous", "prendre"]),
   (.edit, ["change", "modify", "reschedule", "update", "edit",
            "move", "changer", "modifier"]),
   (.cancel, ["cancel", "delete", "remove", "annuler", "supprimer"]),
   (.view, ["view", "show", "list", "my appointments", "check",
            "voir", "afficher", "mes rendez-vous"]),
   (.goodbye, ["bye", "goodbye", "see you", "thanks", "thank you",
               "au revoir", "merci", "bye bye"]),
   (.help, ["help", "what can you do", "options", "aide", "comment"])]

structure SessionContext where
  edit_stage : Option String
  pending_action : Option String
  awaiting_confirmation : Option String
deriving DecidableEq, Repr

def exit_words : List String :=
  ["cancel", "bye", "goodbye", "stop", "quit", "exit", "annuler"]

def activeEditStages : List String :=
  ["shown_appointment", "collecting_changes", "awaiting_final_confirmation"]

/-- The context-override test of `IntentDetector.detect`: an active edit
stage forces the edit intent unless the message contains an exit word. -/
def detectOverride (ml : String) (ctx : Option SessionContext) : Bool :=
  match ctx with
  | none => false
  | some c =>
    match c.edit_stage with
    | none => false
    | some st =>
      activeEditStages.contains st && !(exit_words.any (fun w => strContains ml w))

/-- The keyword-table scan: first intent (in table order) with a matching
keyword; `unclear` when nothing matches. -/
def scanKeywords (ml : String) : List (Intent × List String) → Intent
  | [] => .unclear
  | (i, kws) :: rest =>
    if kws.any (fun k => strContains ml k) then i else scanKeywords ml rest

def detect (message : String) (ctx : Option SessionContext) : Intent :=
  let ml := strTrim (strLower message)
  if detectOverride ml ctx then .edit else scanKeywords ml INTENT_KEYWORDS

def requires_llm (i : Intent) : Bool :=
  match i with
  | .book | .edit | .cancel | .view | .unclear => true
  | _ => false

def requires_tools (i : Intent) : Bool :=
  match i with
  | .book | .edit | .cancel | .view => true
  | _ => false

/-! ## Dialogue orchestrator (`mcp/server.py`) -/

/-- The accumulated-entities dictionary, as a fixed record of optional
fields (`none` = key absent). -/
structure Entities where
  patient_name : Option String
  patient_phone : Option String
  date : Option String
  time : Option String
  doctor_name : Option String
  reason : Option String
  appointment_id : Option String
deriving DecidableEq, Repr

def emptyEntities : Entities := ⟨none, none, none, none, none, none, none⟩

/-- `session['entities'].update(extracted)`: fields present in the
extraction overwrite, absent fields are kept. -/
def mergeEntities (old new : Entities) : Entities :=
  let f : Option String → Option String → Option String :=
    fun o n => match n with | some v => some v | none => o
  ⟨f old.patient_name new.patient_name, f old.patient_phone new.patient_phone,
   f old.date new.date, f old.time new.time, f old.doctor_name new.doctor_name,
   f old.reason new.reason, f old.appointment_id new.appointment_id⟩

/-- One per-session state record (`_get_or_create_session`). -/
structure Session where
  history : List (String × String)
  entities : Entities
  last_intent : Option String
  awaiting_confirmation : Option String
  pending_action : Option String
  edit_stage : Option String
deriving DecidableEq, Repr

def freshSession : Session := ⟨[], emptyEntities, none, none, none, none⟩

/-- Context handed to the response-generation collaborator
(`llm.generate_response`); keys absent from a branch's dict are `none`. -/
structure RespCtx where
  message : String
  intent : String
  collected_data : Entities
  action_result : Option Res
  awaiting_confirmation : Option String
  pending_action : Option String
  edit_stage : Option String
deriving DecidableEq, Repr

/-- The LLM collaborator (entity extraction and response generation),
an external black box. -/
structure Oracle where
  extract : String → String → List (String × String) → Entities → Entities
  respond : RespCtx → List (String × String) → String
  greeting : String
  goodbyeMsg : String
  helpMsg : String

/-- Result dictionary of one `process_message` turn, together with the
updated store and session (`session = none` when `goodbye` deleted it). -/
structure ProcOut where
  response : String
  intent : String
  entities : Option Entities
  action_result : Option Res
  session : Option Session
  store : List Appointment
deriving Repr

def confirm_words : List String :=
  ["yes", "confirm", "ok", "correct", "right", "yep", "yeah", "oui", "si",
   "good", "sure", "proceed"]

def cancel_words : List String :=
  ["no", "cancel", "nope", "nah", "stop", "non", "don\x27t"]

def isConfirming (message : String) : Bool :=
  confirm_words.any (fun w => strContains (strLower message) w)

def isCancelingConfirmation (message : String) : Bool :=
  (cancel_words.any (fun w => strContains (strLower message) w)) && !isConfirming message

/-- The "has valid changes" test used in the edit-confirmation and
edit-collection branches: a date other than the literal placeholder
`"date"`, or a time, doctor or reason. -/
def hasValidChanges (e : Entities) : Bool :=
  let has_new_date := truthyS e.date && e.date != some "date"
  let has_new_time := truthyS e.time
  (has_new_date || has_new_time) || truthyS e.doctor_name || truthyS e.reason

/-- `MCPServer._handle_booking`. -/
def handle_booking (cfg : Config) (now : Nat) (freshId : String)
    (store : List Appointment) (entities : Entities) : Res × List Appointment :=
  let missing :=
    (if truthyS entities.patient_name then [] else ["patient_name"]) ++
    (if truthyS entities.patient_phone then [] else ["patient_phone"]) ++
    (if truthyS entities.date then [] else ["date"]) ++
    (if truthyS entities.time then [] else ["time"])
  if missing ≠ [] then
    ({ mkRes false ("Still need: " ++ String.intercalate ", " missing) with
        missing_fields := some missing }, store)
  else
    book_appointment cfg now freshId store (entities.patient_name.getD "")
      (entities.patient_phone.getD "") (entities.date.getD "") (entities.time.getD "")
      (entities.reason.getD "General consultation")
      (some (entities.doctor_name.getD "Any available doctor"))

/-- `MCPServer._handle_edit`: fill the missing date/time half from the
selected appointment's current start time, then delegate to
`update_appointment_by_phone`. -/
def handle_edit (cfg : Config) (now : Nat) (store : List Appointment)
    (entities : Entities) : Res × List Appointment :=
  let phone := entities.patient_phone
  if !truthyS phone then (mkRes false "Phone number required", store)
  else
    let view_result := view_appointments store (phone.getD "")
    match view_result.appointments with
    | none => (mkRes false "No appointments found", store)
    | some [] => (mkRes false "No appointments found", store)
    | some (current_apt :: _) =>
      if !view_result.success then (mkRes false "No appointments found", store)
      else
        let date_val := entities.date
        let time_val := entities.time
        if truthyS date_val && date_val == some "date" then
          (mkRes false
            "Please provide the actual new date (e.g., \x2721 january 2026\x27)", store)
        else
          let time_val1 :=
            if truthyS date_val && !truthyS time_val then
              some (fmtTimeHM current_apt.start_time)
            else time_val
          let date_val1 :=
            if truthyS time_val1 && !truthyS date_val then
              some (fmtDate current_apt.start_time)
            else date_val
          update_appointment_by_phone cfg now store (phone.getD "")
            date_val1 time_val1 entities.doctor_name entities.reason

/-- Python `session['history'][-10:]`. -/
def lastN (n : Nat) (l : List α) : List α := l.drop (l.length - n)

/-- The confirmation branch of `process_message` (runs when
`awaiting_confirmation` is set and the message is affirmative). -/
def confirmationBranch (o : Oracle) (cfg : Config) (now : Nat) (freshId : String)
    (store : List Appointment) (sess : Session) (message : String) : ProcOut :=
  let ct := sess.awaiting_confirmation.getD ""
  let phone := sess.entities.patient_phone
  -- the edit sub-branch can return early, before any response generation
  if ct == "edit" && truthyS phone && !hasValidChanges sess.entities then
    let response :=
      "Great! What would you like to change? Please provide the new date, time, doctor, or reason."
    { response := response, intent := "edit", entities := some sess.entities
      action_result := none
      session := some { sess with
        awaiting_confirmation := none
        edit_stage := some "collecting_changes"
        history := sess.history ++ [("user", message), ("assistant", response)] }
      store := store }
  else
    let step : Option Res × List Appointment × Session :=
      if ct == "cancel" && truthyS phone then
        let r := cancel_appointment_by_phone now store (phone.getD "")
        (some r.1, r.2,
          { sess with awaiting_confirmation := none, pending_action := none })
      else if ct == "edit" && truthyS phone then
        let r := handle_edit cfg now store sess.entities
        (some r.1, r.2,
          { sess with awaiting_confirmation := none, pending_action := none
                      edit_stage := none })
      else if ct == "book" then
        let r := handle_booking cfg now freshId store sess.entities
        (some r.1, r.2,
          { sess with awaiting_confirmation := none, pending_action := none })
      else (none, store, sess)
    let ar := step.1
    let store1 := step.2.1
    let sess1 := step.2.2
    let response := o.respond
      { message := message, intent := ct, collected_data := sess1.entities
        action_result := ar, awaiting_confirmation := none
        pending_action := none, edit_stage := sess1.edit_stage } sess1.history
    let sess2 := { sess1 with
      history := sess1.history ++ [("user", message), ("assistant", response)] }
    let sess3 :=
      if (ar.map (fun r => r.success)).getD false then
        { sess2 with entities := emptyEntities, edit_stage := none }
      else sess2
    { response := response, intent := ct, entities := some sess3.entities
      action_result := ar, session := some sess3, store := store1 }

/-- The rejection branch (awaiting confirmation, negative message). -/
def rejectionBranch (store : List Appointment) (sess : Session) (message : String) :
    ProcOut :=
  let ct := sess.awaiting_confirmation.getD ""
  let response := "Okay, I\x27ve cancelled the " ++ ct
    ++ " operation. Is there anything else I can help you with?"
  { response := response, intent := "confirmation_cancelled"
    entities := some sess.entities, action_result := none
    session := some { sess with
      awaiting_confirmation := none, pending_action := none, edit_stage := none
      history := sess.history ++ [("user", message), ("assistant", response)] }
    store := store }

/-- The edit-collection branch (`edit_stage` is `shown_appointment` or
`collecting_changes`). -/
def editCollectBranch (o : Oracle) (store : List Appointment) (sess : Session)
    (message : String) : ProcOut :=
  let sess1 :=
    if sess.edit_stage == some "shown_appointment" then
      { sess with edit_stage := some "collecting_changes" }
    else sess
  let extracted := o.extract message "edit" sess1.history sess1.entities
  let ents := mergeEntities sess1.entities extracted
  if hasValidChanges ents then
    let sess2 := { sess1 with
      entities := ents,
      awaiting_confirmation := some "edit",
      edit_stage := some "awaiting_final_confirmation" }
    let response := o.respond
      { message := message, intent := "edit", collected_data := ents
        action_result := none, awaiting_confirmation := some "edit"
        pending_action := none, edit_stage := some "awaiting_final_confirmation" }
      sess2.history
    { response := response, intent := "edit", entities := some ents
      action_result := none
      session := some { sess2 with
        history := sess2.history ++ [("user", message), ("assistant", response)] }
      store := store }
  else
    let response :=
      "I need more details. Please provide the new date and time (e.g., \x2721 january 2026 at 10am\x27), or specify the doctor or reason."
    { response := response, intent := "edit", entities := some ents
      action_result := none
      session := some { sess1 with
        entities := ents,
        history := sess1.history ++ [("user", message), ("assistant", response)] }
      store := store }

/-- Step 1 of the main path: context-aware detection plus the
sticky-intent fallback (an unclear intent is replaced by the pending
action, when one exists). -/
def effectiveIntent (sess : Session) (message : String) : Intent :=
  let intent0 := detect message
    (some ⟨sess.edit_stage, sess.pending_action, sess.awaiting_confirmation⟩)
  if intent0 == .unclear && truthyS sess.pending_action then
    (strToIntent (sess.pending_action.getD "")).getD .unclear
  else intent0

/-- Step 3 of the main path: action-specific pre-execution logic,
branching on the intent (book arms the confirmation gate, view executes
immediately, edit shows the appointment, cancel arms its gate). -/
def mainAction (store : List Appointment) (sess2 : Session) (intent : Intent) :
    Option Res × Session :=
  let ents := sess2.entities
  let phone := ents.patient_phone
  if intent == .book then
    let sess3 := { sess2 with pending_action := some "book" }
    let has_all := truthyS ents.patient_name && truthyS ents.patient_phone
      && truthyS ents.date && truthyS ents.time
    if has_all && !truthyS sess3.awaiting_confirmation then
      (none, { sess3 with awaiting_confirmation := some "book" })
    else (none, sess3)
  else if intent == .view then
    let sess3 := { sess2 with pending_action := some "view" }
    if truthyS phone then
      (some (view_appointments store (phone.getD "")),
        { sess3 with pending_action := none })
    else (none, sess3)
  else if intent == .edit then
    let sess3 := { sess2 with pending_action := some "edit" }
    if !truthyS phone then (none, sess3)
    else if !truthyS sess3.awaiting_confirmation && !truthyS sess3.edit_stage then
      let view_result := view_appointments store (phone.getD "")
      if view_result.success && (view_result.appointments.getD []).length != 0 then
        (some view_result, { sess3 with edit_stage := some "shown_appointment" })
      else
        (some (mkRes false
            ("No appointments found for phone number " ++ phone.getD "")),
          { sess3 with pending_action := none })
    else (none, sess3)
  else if intent == .cancel then
    let sess3 := { sess2 with pending_action := some "cancel" }
    if !truthyS phone then (none, sess3)
    else if !truthyS sess3.awaiting_confirmation then
      let view_result := view_appointments store (phone.getD "")
      if view_result.success && (view_result.appointments.getD []).length != 0 then
        (some view_result, { sess3 with awaiting_confirmation := some "cancel" })
      else
        (some (mkRes false
            ("No appointments found for phone number " ++ phone.getD "")),
          { sess3 with pending_action := none })
    else (none, sess3)
  else (none, sess2)

/-- The main path of `process_message`: context-aware intent detection,
sticky-intent fallback, simple-intent short circuits, entity extraction,
action-specific pre-execution logic, response synthesis and the history
sliding window. -/
def mainBranch (o : Oracle) (cfg : Config) (now : Nat) (freshId : String)
    (store : List Appointment) (sess : Session) (message : String) : ProcOut :=
  let intent := effectiveIntent sess message
  let sess1 := { sess with last_intent := some intent.str }
  if intent == .greet then
    ⟨o.greeting, "greet", none, none, some sess1, store⟩
  else if intent == .goodbye then
    ⟨o.goodbyeMsg, "goodbye", none, none, none, store⟩
  else if intent == .help then
    ⟨o.helpMsg, "help", none, none, some sess1, store⟩
  else
    let ents :=
      if requires_llm intent then
        mergeEntities sess1.entities
          (o.extract message intent.str sess1.history sess1.entities)
      else sess1.entities
    let sess2 := { sess1 with entities := ents }
    let step := mainAction store sess2 intent
    let ar := step.1
    let sess3 := step.2
    let response := o.respond
      { message := message, intent := intent.str, collected_data := ents
        action_result := ar
        awaiting_confirmation := sess3.awaiting_confirmation
        pending_action := sess3.pending_action
        edit_stage := sess3.edit_stage } sess3.history
    let hist1 := sess3.history ++ [("user", message), ("assistant", response)]
    let hist2 := if hist1.length > 10 then lastN 10 hist1 else hist1
    { response := response, intent := intent.str, entities := some ents
      action_result := ar, session := some { sess3 with history := hist2 }
      store := store }

/-- One full turn of `MCPServer.process_message`. -/
def process_message (o : Oracle) (cfg : Config) (now : Nat) (freshId : String)
    (store : List Appointment) (sess : Session) (message : String) : ProcOut :=
  if truthyS sess.awaiting_confirmation && isConfirming message then
    confirmationBranch o cfg now freshId store sess message
  else if truthyS sess.awaiting_confirmation && isCancelingConfirmation message then
    rejectionBranch store sess message
  else if sess.edit_stage == some "shown_appointment"
       || sess.edit_stage == some "collecting_changes" then
    editCollectBranch o store sess message
  else
    mainBranch o cfg now freshId store sess message

/-- Process a sequence of messages in one session (a deleted session is
recreated by `_get_or_create_session`). -/
def runMsgs (o : Oracle) (cfg : Config) (now : Nat) (freshId : String)
    (init : List Appointment × Session) (msgs : List String) :
    List Appointment × Session :=
  msgs.foldl
    (fun st m =>
      let out := process_message o cfg now freshId st.1 st.2 m
      (out.store, out.session.getD freshSession))
    init

/-! ## C6: privacy-safe conflict reporting -/

/-- Two appointment records that agree on everything except the patient's
identity (name and phone). -/
def sameExceptIdentity (a b : Appointment) : Prop :=
  a.id = b.id ∧ a.start_time = b.start_time ∧ a.end_time = b.end_time ∧
  a.duration = b.duration ∧ a.reason = b.reason ∧ a.doctor_name = b.doctor_name ∧
  a.created_at = b.created_at ∧ a.status = b.status

lemma conflictPred_congr {a b : Appointment} (h : sameExceptIdentity a b)
    (s e : Nat) (excl : Option String) :
    conflictPred s e excl a = conflictPred s e excl b := by
  obtain ⟨hid, hst, hen, -⟩ := h
  simp only [conflictPred, overlapsB, hid, hst, hen]

lemma findConflict_rel {s₁ s₂ : List Appointment}
    (h : List.Forall₂ sameExceptIdentity s₁ s₂) (s e : Nat) (excl : Option String) :
    (findConflict s₁ s e excl = none ∧ findConflict s₂ s e excl = none) ∨
    (∃ a b, findConflict s₁ s e excl = some a ∧ findConflict s₂ s e excl = some b ∧
      a.id = b.id ∧ a.start_time = b.start_time) := by
  induction h with
  | nil => exact Or.inl ⟨rfl, rfl⟩
  | cons hab htl ih =>
    rename_i a b l₁ l₂
    simp only [findConflict, List.find?_cons] at *
    rw [conflictPred_congr hab s e excl]
    cases hp : conflictPred s e excl b with
    | true => exact Or.inr ⟨a, b, rfl, rfl, hab.1, hab.2.1⟩
    | false => exact ih

/-- C6: two stores that differ only in the patient identity fields of their
records produce identical `check_availability` results; in particular a
conflict response carries only the conflicting appointment's id and start
time, never the other patient's name or phone. -/
theorem privacy_safe_conflict_reporting
    {s₁ s₂ : List Appointment} (h : List.Forall₂ sameExceptIdentity s₁ s₂)
    (cfg : Config) (now start : Nat) (durationArg : Option Nat)
    (excl : Option String) :
    check_availability cfg now s₁ start durationArg excl =
      check_availability cfg now s₂ start durationArg excl := by
  rcases findConflict_rel h start
      (start + durationArg.getD cfg.appointment_duration) excl with
    ⟨h1, h2⟩ | ⟨a, b, h1, h2, hid, hst⟩
  · simp only [check_availability, h1, h2]
  · simp only [check_availability, h1, h2, hid, hst]

def privacyStoreA : List Appointment :=
  [{ id := "c1", patient_name := "Alice", patient_phone := "0551112222"
     start_time := mkTs 2026 1 5 10 0, end_time := mkTs 2026 1 5 10 30
     duration := 30, reason := "checkup", doctor_name := none
     created_at := 0, status := "confirmed" }]

def privacyStoreB : List Appointment :=
  [{ id := "c1", patient_name := "Bob", patient_phone := "0553334444"
     start_time := mkTs 2026 1 5 10 0, end_time := mkTs 2026 1 5 10 30
     duration := 30, reason := "checkup", doctor_name := none
     created_at := 0, status := "confirmed" }]

/-- C6 witness: a concrete conflicting request against two stores that
differ only in the colliding patient's name and phone. -/
theorem privacy_safe_conflict_reporting_witness :
    check_availability CLINIC_CONFIG (mkTs 2026 1 1 9 0) privacyStoreA
        (mkTs 2026 1 5 10 0) (some 30) none =
      check_availability CLINIC_CONFIG (mkTs 2026 1 1 9 0) privacyStoreB
        (mkTs 2026 1 5 10 0) (some 30) none :=
  privacy_safe_conflict_reporting
    (List.Forall₂.cons ⟨rfl, rfl, rfl, rfl, rfl, rfl, rfl, rfl⟩ List.Forall₂.nil)
    CLINIC_CONFIG (mkTs 2026 1 1 9 0) (mkTs 2026 1 5 10 0) (some 30) none

/-! ## C2: update self-exclusion -/

lemma findWithIdx_eq_none {p : Appointment → Bool} :
    ∀ {l : List Appointment}, (∀ a ∈ l, p a = false) → findWithIdx p l = none := by
  intro l
  induction l with
  | nil => intro _; rfl
  | cons a rest ih =>
    intro h
    have ha := h a (List.mem_cons_self a rest)
    have hr := ih (fun b hb => h b (List.mem_cons_of_mem a hb))
    simp [findWithIdx, ha, hr]

lemma findWithIdx_some {p : Appointment → Bool} :
    ∀ {l : List Appointment} {i : Nat} {x : Appointment},
      findWithIdx p l = some (i, x) → l[i]? = some x ∧ p x = true := by
  intro l
  induction l with
  | nil => intro i x h; simp [findWithIdx] at h
  | cons a rest ih =>
    intro i x h
    by_cases hp : p a
    · simp only [findWithIdx] at h
      rw [if_pos hp] at h
      injection h with h2
      injection h2 with hi hx
      subst hi; subst hx
      exact ⟨by simp, hp⟩
    · simp only [findWithIdx] at h
      rw [if_neg hp] at h
      rcases hfd : findWithIdx p rest with _ | ⟨j, y⟩
      · rw [hfd] at h; simp at h
      · rw [hfd] at h
        simp only [Option.map] at h
        injection h with h2
        injection h2 with hi hx
        subst hx
        obtain ⟨h1, h2⟩ := ih hfd
        refine ⟨?_, h2⟩
        rw [← hi]
        simpa using h1

/-- C2: (a) updating an appointment X found in the store to a start time
inside working hours, not in the past, and overlapping no record with a
different id succeeds (X is excluded from its own conflict scan);
(b) an unknown id fails with the appointment-not-found result;
(c) a partial update applies exactly the supplied fields. -/
theorem update_self_exclusion :
    (∀ cfg now store i X t hrs,
      findWithIdx (fun a => a.id == X.id) store = some (i, X) →
      X.id ≠ "" →
      (∀ B ∈ store, B.id ≠ X.id → ¬(t < B.end_time ∧ B.start_time < t + X.duration)) →
      cfg.working_hours (weekdayOf t) = some hrs →
      hrs.1 ≤ hourOf t → hourOf t < hrs.2 → now ≤ t →
      update_appointment cfg now store X.id ⟨some t, none, none⟩ =
        ({ mkRes true "Appointment updated successfully" with
            appointment := some { X with start_time := t, end_time := t + X.duration } },
          store.set i { X with start_time := t, end_time := t + X.duration }))
  ∧ (∀ cfg now store id upd, (∀ a ∈ store, a.id ≠ id) →
      update_appointment cfg now store id upd =
        (mkRes false "Appointment not found", store))
  ∧ (∀ cfg now store i X upd, upd.start_time = none →
      findWithIdx (fun a => a.id == X.id) store = some (i, X) →
      update_appointment cfg now store X.id upd =
        ({ mkRes true "Appointment updated successfully" with
            appointment := some (applyFieldUpdates X upd) },
          store.set i (applyFieldUpdates X upd))
      ∧ (applyFieldUpdates X upd).start_time = X.start_time
      ∧ (applyFieldUpdates X upd).end_time = X.end_time
      ∧ (applyFieldUpdates X upd).id = X.id
      ∧ (applyFieldUpdates X upd).patient_name = X.patient_name
      ∧ (applyFieldUpdates X upd).patient_phone = X.patient_phone
      ∧ (applyFieldUpdates X upd).doctor_name = (match upd.doctor_name with
          | some d => some d | none => X.doctor_name)
      ∧ (applyFieldUpdates X upd).reason = upd.reason.getD X.reason) := by
  refine ⟨?_, ?_, ?_⟩
  · intro cfg now store i X t hrs hfind hid hnoc hwh hlo hhi hpast
    have hfc : findConflict store t (t + X.duration) (some X.id) = none := by
      refine List.find?_eq_none.mpr (fun B hB => ?_)
      by_cases hBid : B.id = X.id
      · simp [conflictPred, truthyS, hid, hBid]
      · have := hnoc B hB hBid
        simp only [conflictPred, overlapsB, Bool.not_eq_true]
        simp only [Bool.and_eq_false_iff]
        right
        rcases Nat.lt_or_ge t B.end_time with hlt | hge
        · have : ¬ (B.start_time < t + X.duration) := fun hc => this ⟨hlt, hc⟩
          simp [this]
        · simp [Nat.not_lt.mpr hge]
    have havail : check_availability cfg now store t (some X.duration) (some X.id) =
        { available := true, message := "Available", reason := none
          conflicting_appointment_id := none, conflicting_time := none } := by
      simp only [check_availability, Option.getD_some, hfc, hwh]
      rw [if_neg, if_neg]
      · exact Nat.not_lt.mpr hpast
      · simp only [Bool.or_eq_true, decide_eq_true_eq, not_or, Nat.not_lt, Nat.not_le]
        exact ⟨hlo, hhi⟩
    simp only [update_appointment, hfind, havail, Bool.not_true, finishUpdate]
    rfl
  · intro cfg now store id upd hnone
    have : findWithIdx (fun a => a.id == id) store = none :=
      findWithIdx_eq_none (fun a ha => by
        simpa using hnone a ha)
    simp [update_appointment, this]
  · intro cfg now store i X upd hstart hfind
    refine ⟨?_, ?_⟩
    · simp only [update_appointment, hfind, hstart, finishUpdate]
    · rcases hd : upd.doctor_name with _ | d <;> rcases hr : upd.reason with _ | r <;>
        simp [applyFieldUpdates, hd, hr]

def uX : Appointment :=
  { id := "u1", patient_name := "Ahmed Benali", patient_phone := "0555123456"
    start_time := mkTs 2026 1 5 10 0, end_time := mkTs 2026 1 5 10 30
    duration := 30, reason := "checkup", doctor_name := none
    created_at := 0, status := "confirmed" }

def uB : Appointment :=
  { id := "u2", patient_name := "Lina", patient_phone := "0666123456"
    start_time := mkTs 2026 1 5 11 0, end_time := mkTs 2026 1 5 11 30
    duration := 30, reason := "checkup", doctor_name := none
    created_at := 0, status := "confirmed" }

/-- C2 witness: moving `uX` to a free noon slot on the same Monday
succeeds, with `uX` excluded from its own conflict scan. -/
theorem update_self_exclusion_witness :
    update_appointment CLINIC_CONFIG (mkTs 2026 1 1 9 0) [uX, uB] uX.id
        ⟨some (mkTs 2026 1 5 12 0), none, none⟩ =
      ({ mkRes true "Appointment updated successfully" with
          appointment :=
            some { uX with
              start_time := mkTs 2026 1 5 12 0,
              end_time := mkTs 2026 1 5 12 0 + uX.duration } },
        [uX, uB].set 0 { uX with
          start_time := mkTs 2026 1 5 12 0,
          end_time := mkTs 2026 1 5 12 0 + uX.duration }) :=
  update_self_exclusion.1 CLINIC_CONFIG (mkTs 2026 1 1 9 0) [uX, uB] 0 uX
    (mkTs 2026 1 5 12 0) (9, 18) (by decide) (by decide)
    (by decide) (by decide) (by decide) (by decide) (by decide)

/-! ## C1: no double-booking invariant -/

/-- Store states reachable through the three mutating calendar operations,
starting from the empty store.  The id handed to `create_appointment` is
`str(uuid.uuid4())[:8]`; its collision-resistance (spec §3) is modelled by
the freshness hypothesis on the `create` step. -/
inductive Reachable (cfg : Config) : List Appointment → Prop
  | init : Reachable cfg []
  | create (s : List Appointment) (now : Nat) (nm ph : String) (start : Nat)
      (dur : Option Nat) (rs : String) (dr : Option String) (fid : String)
      (hs : Reachable cfg s) (hfresh : fid ∉ s.map (fun a => a.id)) :
      Reachable cfg (create_appointment cfg now s nm ph start dur rs dr fid).2
  | update (s : List Appointment) (now : Nat) (id : String)
      (upd : AppointmentUpdates) (hs : Reachable cfg s) :
      Reachable cfg (update_appointment cfg now s id upd).2
  | cancel (s : List Appointment) (id : String) (hs : Reachable cfg s) :
      Reachable cfg (cancel_appointment s id).2

/-- The store invariant: pairwise non-overlapping half-open intervals and
pairwise distinct ids. -/
def StoreInv (s : List Appointment) : Prop :=
  s.Pairwise (fun a b => a.end_time ≤ b.start_time ∨ b.end_time ≤ a.start_time) ∧
  s.Pairwise (fun a b => a.id ≠ b.id)

lemma avail_no_conflict {cfg : Config} {now : Nat} {store : List Appointment}
    {start : Nat} {durationArg : Option Nat} {excl : Option String}
    (h : (check_availability cfg now store start durationArg excl).available = true) :
    findConflict store start (start + durationArg.getD cfg.appointment_duration)
      excl = none := by
  rcases hfc : findConflict store start
      (start + durationArg.getD cfg.appointment_duration) excl with _ | apt
  · rfl
  · simp [check_availability, hfc] at h

lemma storeInv_set {s : List Appointment} {i : Nat} {a b : Appointment}
    (hinv : StoreInv s) (hi : i < s.length) (ha : s[i] = a)
    (hid : b.id = a.id)
    (hsep : ∀ j, (hj : j < s.length) → j ≠ i →
      s[j].end_time ≤ b.start_time ∨ b.end_time ≤ s[j].start_time) :
    StoreInv (s.set i b) := by
  obtain ⟨hov, hids⟩ := hinv
  rw [List.pairwise_iff_getElem] at hov hids
  constructor <;> rw [List.pairwise_iff_getElem] <;>
    intro j k hj hk hjk <;>
    simp only [List.length_set] at hj hk <;>
    rw [List.getElem_set, List.getElem_set]
  · rcases Decidable.em (i = j) with rfl | hij <;>
      rcases Decidable.em (i = k) with rfl | hik
    · omega
    · rw [if_pos rfl, if_neg hik]
      rcases hsep k hk (fun hc => hik hc.symm) with h | h
      · exact Or.inr h
      · exact Or.inl h
    · rw [if_neg hij, if_pos rfl]
      exact hsep j hj (fun hc => hij hc.symm)
    · rw [if_neg hij, if_neg hik]
      exact hov j k hj hk hjk
  · rcases Decidable.em (i = j) with rfl | hij <;>
      rcases Decidable.em (i = k) with rfl | hik
    · omega
    · rw [if_pos rfl, if_neg hik, hid, ← ha]
      exact hids i k hj hk hjk
    · rw [if_neg hij, if_pos rfl, hid, ← ha]
      exact hids j i hj hk hjk
    · rw [if_neg hij, if_neg hik]
      exact hids j k hj hk hjk

lemma conflictPred_false_sep {t e : Nat} {excl : Option String} {B : Appointment}
    (hskip : (truthyS excl && excl == some B.id) = false)
    (hp : conflictPred t e excl B = false) :
    B.end_time ≤ t ∨ e ≤ B.start_time := by
  simp only [conflictPred, hskip, Bool.not_false, Bool.true_and, overlapsB] at hp
  rcases Bool.and_eq_false_iff.mp hp with h | h <;>
    simp only [decide_eq_false_iff_not, Nat.not_lt] at h
  · exact Or.inl h
  · exact Or.inr h

lemma applyFieldUpdates_same (apt : Appointment) (upd : AppointmentUpdates) :
    (applyFieldUpdates apt upd).start_time = apt.start_time ∧
    (applyFieldUpdates apt upd).end_time = apt.end_time ∧
    (applyFieldUpdates apt upd).id = apt.id := by
  obtain ⟨us, ud, ur⟩ := upd
  rcases ud with _ | d <;> rcases ur with _ | r <;> simp [applyFieldUpdates]

lemma pairwise_sep_at {s : List Appointment}
    (hp : s.Pairwise (fun a b =>
      a.end_time ≤ b.start_time ∨ b.end_time ≤ a.start_time))
    {i j : Nat} (hi : i < s.length) (hj : j < s.length) (hne : j ≠ i) :
    s[j].end_time ≤ s[i].start_time ∨ s[i].end_time ≤ s[j].start_time := by
  rw [List.pairwise_iff_getElem] at hp
  rcases Nat.lt_or_ge j i with h | h
  · exact hp j i hj hi h
  · have hij : i < j := by omega
    rcases hp i j hi hj hij with h' | h'
    · exact Or.inr h'
    · exact Or.inl h'

lemma pairwise_ne_at {s : List Appointment}
    (hp : s.Pairwise (fun a b => a.id ≠ b.id))
    {i j : Nat} (hi : i < s.length) (hj : j < s.length) (hne : j ≠ i) :
    s[j].id ≠ s[i].id := by
  rw [List.pairwise_iff_getElem] at hp
  rcases Nat.lt_or_ge j i with h | h
  · exact hp j i hj hi h
  · have hij : i < j := by omega
    exact (hp i j hi hj hij).symm

lemma create_preserves {cfg : Config} {now : Nat} {s : List Appointment}
    {nm ph : String} {start : Nat} {dur : Option Nat} {rs : String}
    {dr : Option String} {fid : String}
    (hinv : StoreInv s) (hfresh : fid ∉ s.map (fun a => a.id)) :
    StoreInv (create_appointment cfg now s nm ph start dur rs dr fid).2 := by
  by_cases hav : (check_availability cfg now s start
      (some (dur.getD cfg.appointment_duration)) none).available = true
  · have hfc := avail_no_conflict hav
    simp only [Option.getD_some] at hfc
    simp only [create_appointment, hav, Bool.not_true, Bool.false_eq_true, if_false]
    refine ⟨List.pairwise_append.mpr ⟨hinv.1, List.pairwise_singleton .., ?_⟩,
            List.pairwise_append.mpr ⟨hinv.2, List.pairwise_singleton .., ?_⟩⟩
    · intro a ha b hb
      rw [List.mem_singleton] at hb
      subst hb
      have hp := Bool.not_eq_true _ ▸ (List.find?_eq_none.mp hfc a ha)
      exact conflictPred_false_sep (by simp [truthyS]) hp
    · intro a ha b hb
      rw [List.mem_singleton] at hb
      subst hb
      intro hc
      exact hfresh (List.mem_map.mpr ⟨a, ha, hc⟩)
  · rw [Bool.not_eq_true] at hav
    simpa [create_appointment, hav] using hinv

lemma update_preserves {cfg : Config} {now : Nat} {s : List Appointment}
    {id : String} {upd : AppointmentUpdates} (hinv : StoreInv s) :
    StoreInv (update_appointment cfg now s id upd).2 := by
  rcases hfind : findWithIdx (fun a => a.id == id) s with _ | ⟨i, apt⟩
  · simpa [update_appointment, hfind] using hinv
  · obtain ⟨hget, hpid⟩ := findWithIdx_some hfind
    obtain ⟨hilt, hgeti⟩ := List.getElem?_eq_some_iff.mp hget
    have haptid : apt.id = id := by simpa using hpid
    rcases hstart : upd.start_time with _ | t
    · simp only [update_appointment, hfind, hstart, finishUpdate]
      obtain ⟨h1, h2, h3⟩ := applyFieldUpdates_same apt upd
      refine storeInv_set hinv hilt hgeti h3 ?_
      intro j hj hne
      rw [h1, h2, ← hgeti]
      exact pairwise_sep_at hinv.1 hilt hj hne
    · by_cases hav : (check_availability cfg now s t (some apt.duration)
          (some id)).available = true
      · have hfc := avail_no_conflict hav
        simp only [Option.getD_some] at hfc
        simp only [update_appointment, hfind, hstart, hav, Bool.not_true,
          Bool.false_eq_true, if_false, finishUpdate]
        obtain ⟨h1, h2, h3⟩ := applyFieldUpdates_same
          { apt with start_time := t, end_time := t + apt.duration } upd
        refine storeInv_set hinv hilt hgeti (by simpa using h3) ?_
        intro j hj hne
        rw [h1, h2]
        have hBid : s[j].id ≠ apt.id := by
          rw [← hgeti]
          exact pairwise_ne_at hinv.2 hilt hj hne
        have hskip : (truthyS (some id) && (some id == some (s[j]).id)) = false := by
          by_cases hid0 : id = ""
          · simp [truthyS, hid0]
          · have : id ≠ s[j].id := fun hc => hBid (by rw [haptid, hc])
            simp [truthyS, hid0, this]
        have hp := Bool.not_eq_true _ ▸
          (List.find?_eq_none.mp hfc (s[j]) (List.getElem_mem hj))
        simpa using conflictPred_false_sep hskip hp
      · rw [Bool.not_eq_true] at hav
        simpa [update_appointment, hfind, hstart, hav] using hinv

lemma cancel_preserves {s : List Appointment} {id : String} (hinv : StoreInv s) :
    StoreInv (cancel_appointment s id).2 := by
  unfold cancel_appointment
  by_cases h : (s.filter (fun apt => apt.id != id)).length < s.length
  · simp only [h, if_true]
    exact ⟨hinv.1.sublist (List.filter_sublist s), hinv.2.sublist (List.filter_sublist s)⟩
  · simp only [h, if_false]
    exact hinv

lemma reachable_inv {cfg : Config} {s : List Appointment}
    (h : Reachable cfg s) : StoreInv s := by
  induction h with
  | init => exact ⟨List.Pairwise.nil, List.Pairwise.nil⟩
  | create s now nm ph start dur rs dr fid hs hfresh ih =>
    exact create_preserves ih hfresh
  | update s now id upd hs ih => exact update_preserves ih
  | cancel s id hs ih => exact cancel_preserves ih

/-- C1: every store state reachable through `create_appointment`,
`update_appointment` and `cancel_appointment` contains no two distinct
records with overlapping `[start_time, end_time)` intervals:
`A.end <= B.start` or `B.end <= A.start`. -/
theorem no_double_booking {cfg : Config} {s : List Appointment}
    (h : Reachable cfg s) :
    ∀ (i j : Nat) (A B : Appointment), i ≠ j → s[i]? = some A → s[j]? = some B →
      A.end_time ≤ B.start_time ∨ B.end_time ≤ A.start_time := by
  intro i j A B hij hA hB
  obtain ⟨hi, hAe⟩ := List.getElem?_eq_some_iff.mp hA
  obtain ⟨hj, hBe⟩ := List.getElem?_eq_some_iff.mp hB
  subst hAe
  subst hBe
  exact pairwise_sep_at (reachable_inv h).1 hj hi hij

def wNow : Nat := mkTs 2026 1 1 9 0

def wStore1 : List Appointment :=
  (create_appointment CLINIC_CONFIG wNow [] "Ahmed Benali" "0555123456"
    (mkTs 2026 1 5 10 0) none "Consultation" none "id1").2

def wStore2 : List Appointment :=
  (create_appointment CLINIC_CONFIG wNow wStore1 "Lina" "0666123456"
    (mkTs 2026 1 5 11 0) none "Consultation" none "id2").2

def wA : Appointment :=
  { id := "id1", patient_name := "Ahmed Benali", patient_phone := "0555123456"
    start_time := mkTs 2026 1 5 10 0, end_time := mkTs 2026 1 5 10 0 + 30
    duration := 30, reason := "Consultation", doctor_name := none
    created_at := wNow, status := "confirmed" }

def wB : Appointment :=
  { id := "id2", patient_name := "Lina", patient_phone := "0666123456"
    start_time := mkTs 2026 1 5 11 0, end_time := mkTs 2026 1 5 11 0 + 30
    duration := 30, reason := "Consultation", doctor_name := none
    created_at := wNow, status := "confirmed" }

/-- C1 witness: a store reached by two successful bookings keeps the two
records disjoint. -/
theorem no_double_booking_witness :
    wA.end_time ≤ wB.start_time ∨ wB.end_time ≤ wA.start_time :=
  no_double_booking
    (Reachable.create wStore1 wNow "Lina" "0666123456" (mkTs 2026 1 5 11 0)
      none "Consultation" none "id2"
      (Reachable.create [] wNow "Ahmed Benali" "0555123456" (mkTs 2026 1 5 10 0)
        none "Consultation" none "id1" Reachable.init (by decide))
      (by decide))
    0 1 wA wB (by decide) (by decide) (by decide)

/-! ## C7: weekday roll-forward in `parse_datetime` -/

lemma rollForward_spec : ∀ wd, wd < 7 → ∀ target, target < 7 →
    1 ≤ rollForward wd target ∧ rollForward wd target ≤ 7 ∧
    (wd + rollForward wd target) % 7 = target ∧
    (target = wd → rollForward wd target = 7) ∧
    (wd < target → rollForward wd target = target - wd) ∧
    (target < wd → rollForward wd target = target + 7 - wd) := by decide

lemma weekday_roll_tail (now target : Nat) (ht : target < 7) :
    weekdayOf ((now / 1440 + rollForward (weekdayOf now) target) * 1440 + 870)
        = target
    ∧ hourOf ((now / 1440 + rollForward (weekdayOf now) target) * 1440 + 870) = 14
    ∧ minuteOf ((now / 1440 + rollForward (weekdayOf now) target) * 1440 + 870) = 30
    ∧ (target = weekdayOf now → rollForward (weekdayOf now) target = 7)
    ∧ (weekdayOf now < target →
        rollForward (weekdayOf now) target = target - weekdayOf now)
    ∧ (target < weekdayOf now →
        rollForward (weekdayOf now) target = target + 7 - weekdayOf now)
    ∧ 1 ≤ rollForward (weekdayOf now) target
    ∧ rollForward (weekdayOf now) target ≤ 7 := by
  have hwd : weekdayOf now < 7 := Nat.mod_lt _ (by norm_num)
  obtain ⟨h1, h2, h3, h4, h5, h6⟩ :=
    rollForward_spec (weekdayOf now) hwd target ht
  have hweek : weekdayOf
      ((now / 1440 + rollForward (weekdayOf now) target) * 1440 + 870) = target := by
    unfold weekdayOf at *
    omega
  refine ⟨hweek, ?_, ?_, h4, h5, h6, h1, h2⟩
  · unfold hourOf; omega
  · unfold minuteOf; omega

/-- C7: for every weekday name in the parser's English/French table,
`parse_datetime(name, "14h30")` resolves to 14:30 on the next occurrence of
that weekday strictly after today: the date advances by
`target - weekday(now)` days when that is positive and by 7 more days
otherwise (in particular by exactly 7 when the named weekday is today's). -/
theorem weekday_roll_forward :
    ∀ (w : String) (target now : Nat), (w, target) ∈ day_names →
      parse_datetime now w "14h30" =
        some ((now / 1440 + rollForward (weekdayOf now) target) * 1440 + 870)
      ∧ weekdayOf ((now / 1440 + rollForward (weekdayOf now) target) * 1440 + 870)
          = target
      ∧ hourOf ((now / 1440 + rollForward (weekdayOf now) target) * 1440 + 870) = 14
      ∧ minuteOf ((now / 1440 + rollForward (weekdayOf now) target) * 1440 + 870)
          = 30
      ∧ (target = weekdayOf now → rollForward (weekdayOf now) target = 7)
      ∧ (weekdayOf now < target →
          rollForward (weekdayOf now) target = target - weekdayOf now)
      ∧ (target < weekdayOf now →
          rollForward (weekdayOf now) target = target + 7 - weekdayOf now)
      ∧ 1 ≤ rollForward (weekdayOf now) target
      ∧ rollForward (weekdayOf now) target ≤ 7 := by
  intro w target now hmem
  fin_cases hmem <;>
    exact ⟨rfl, weekday_roll_tail now _ (by norm_num)⟩

/-- C7 witness: parsing "wednesday" at 14h30 on Monday 2026-10-12 gives
Wednesday 2026-10-14 14:30, two days later. -/
theorem weekday_roll_forward_witness :
    parse_datetime (mkTs 2026 10 12 9 0) "wednesday" "14h30" =
      some ((mkTs 2026 10 12 9 0 / 1440 +
        rollForward (weekdayOf (mkTs 2026 10 12 9 0)) 2) * 1440 + 870)
    ∧ weekdayOf ((mkTs 2026 10 12 9 0 / 1440 +
        rollForward (weekdayOf (mkTs 2026 10 12 9 0)) 2) * 1440 + 870) = 2
    ∧ hourOf ((mkTs 2026 10 12 9 0 / 1440 +
        rollForward (weekdayOf (mkTs 2026 10 12 9 0)) 2) * 1440 + 870) = 14
    ∧ minuteOf ((mkTs 2026 10 12 9 0 / 1440 +
        rollForward (weekdayOf (mkTs 2026 10 12 9 0)) 2) * 1440 + 870) = 30
    ∧ (2 = weekdayOf (mkTs 2026 10 12 9 0) →
        rollForward (weekdayOf (mkTs 2026 10 12 9 0)) 2 = 7)
    ∧ (weekdayOf (mkTs 2026 10 12 9 0) < 2 →
        rollForward (weekdayOf (mkTs 2026 10 12 9 0)) 2 =
          2 - weekdayOf (mkTs 2026 10 12 9 0))
    ∧ (2 < weekdayOf (mkTs 2026 10 12 9 0) →
        rollForward (weekdayOf (mkTs 2026 10 12 9 0)) 2 =
          2 + 7 - weekdayOf (mkTs 2026 10 12 9 0))
    ∧ 1 ≤ rollForward (weekdayOf (mkTs 2026 10 12 9 0)) 2
    ∧ rollForward (weekdayOf (mkTs 2026 10 12 9 0)) 2 ≤ 7 :=
  weekday_roll_forward "wednesday" 2 (mkTs 2026 10 12 9 0) (by decide)

/-! ## C8: context-aware intent detection -/

lemma scanKeywords_unclear (ml : String) :
    ∀ table, (∀ p ∈ table, ∀ k ∈ p.2, strContains ml k = false) →
      scanKeywords ml table = .unclear := by
  intro table
  induction table with
  | nil => intro _; rfl
  | cons p rest ih =>
    intro h
    obtain ⟨i0, kws⟩ := p
    have hnone : kws.any (fun k => strContains ml k) = false := by
      rw [List.any_eq_false]
      intro k hk
      simp [h (i0, kws) (List.mem_cons_self ..) k hk]
    simp [scanKeywords, hnone,
      ih (fun q hq => h q (List.mem_cons_of_mem _ hq))]

lemma scanKeywords_first_match (ml : String) :
    ∀ table (i : Intent), scanKeywords ml table = i → i ≠ .unclear →
      ∃ (j : Nat), (∃ (kws : List String), table[j]? = some (i, kws) ∧
              kws.any (fun k => strContains ml k) = true)
        ∧ ∀ j' < j, ∀ (p : Intent × List String), table[j']? = some p →
            p.2.any (fun k => strContains ml k) = false := by
  intro table
  induction table with
  | nil =>
    intro i h hne
    exact absurd h.symm hne
  | cons p rest ih =>
    intro i h hne
    obtain ⟨i0, kws⟩ := p
    by_cases hm : kws.any (fun k => strContains ml k) = true
    · simp only [scanKeywords, hm, if_true] at h
      subst h
      exact ⟨0, ⟨kws, List.getElem?_cons_zero, hm⟩,
        fun j' hj' => absurd hj' (Nat.not_lt_zero j')⟩
    · rw [Bool.not_eq_true] at hm
      simp only [scanKeywords, hm, Bool.false_eq_true, if_false] at h
      obtain ⟨j, ⟨kws', hj, hk⟩, hearlier⟩ := ih i h hne
      refine ⟨j + 1, ⟨kws', by simpa using hj, hk⟩, ?_⟩
      intro j' hj' q hq
      cases j' with
      | zero =>
        rw [List.getElem?_cons_zero] at hq
        injection hq with hq
        subst hq
        exact hm
      | succ j'' =>
        rw [List.getElem?_cons_succ] at hq
        exact hearlier j'' (by omega) q hq

/-- C8: with an active edit sub-state and no exit keyword the detector
forces the edit intent; otherwise it returns the first intent of the fixed
keyword table (in table order) with a substring match, and `unclear` when
nothing matches. -/
theorem context_aware_intent_detection :
    (∀ (m : String) (c : SessionContext) (st : String),
      c.edit_stage = some st → st ∈ activeEditStages →
      (∀ w ∈ exit_words, strContains (strTrim (strLower m)) w = false) →
      detect m (some c) = .edit)
  ∧ (∀ (m : String) (c : SessionContext),
      detectOverride (strTrim (strLower m)) (some c) = false →
      (∀ p ∈ INTENT_KEYWORDS, ∀ k ∈ p.2,
          strContains (strTrim (strLower m)) k = false) →
      detect m (some c) = .unclear)
  ∧ (∀ (m : String) (c : SessionContext) (i : Intent),
      detectOverride (strTrim (strLower m)) (some c) = false →
      detect m (some c) = i → i ≠ .unclear →
      ∃ (j : Nat), (∃ (kws : List String), INTENT_KEYWORDS[j]? = some (i, kws) ∧
              kws.any (fun k => strContains (strTrim (strLower m)) k) = true)
        ∧ ∀ j' < j, ∀ (p : Intent × List String), INTENT_KEYWORDS[j']? = some p →
            p.2.any (fun k => strContains (strTrim (strLower m)) k) = false) := by
  refine ⟨?_, ?_, ?_⟩
  · intro m c st hst hactive hexit
    have hov : detectOverride (strTrim (strLower m)) (some c) = true := by
      simp only [detectOverride, hst]
      rw [Bool.and_eq_true]
      constructor
      · exact List.elem_iff.mpr hactive
      · rw [Bool.not_eq_eq_eq_not, Bool.not_true, List.any_eq_false]
        intro w hw
        simp [hexit w hw]
    simp [detect, hov]
  · intro m c hov hall
    simp only [detect, hov, Bool.false_eq_true, if_false]
    exact scanKeywords_unclear _ _ hall
  · intro m c i hov hdet hne
    simp only [detect, hov, Bool.false_eq_true, if_false] at hdet
    exact scanKeywords_first_match _ _ i hdet hne

/-- C8 witness: in the `collecting_changes` edit stage, a message carrying
a booking keyword is still classified as edit. -/
theorem context_aware_intent_detection_witness :
    detect "book it for 3pm" (some ⟨some "collecting_changes", none, none⟩) =
      .edit :=
  context_aware_intent_detection.1 "book it for 3pm"
    ⟨some "collecting_changes", none, none⟩ "collecting_changes"
    rfl (by decide) (by decide)

/-! ## C3: edit partial-field fill -/

def aptC3 : Appointment :=
  { id := "a1", patient_name := "Karim", patient_phone := "0555123456"
    start_time := mkTs 2024 6 10 14 0, end_time := mkTs 2024 6 10 14 30
    duration := 30, reason := "checkup", doctor_name := none
    created_at := 0, status := "confirmed" }

def entsC3 : Entities :=
  { emptyEntities with patient_phone := some "0555123456", time := some "16:00" }

/-- C3 counterexample: `update_appointment_by_phone` itself, given only a
new time "16:00" for an appointment at 2024-06-10T14:00, does not fill the
missing date half: it fails with "No changes specified" and leaves the
store unchanged, contradicting the claim that the function yields an
appointment at 2024-06-10 16:00. -/
theorem edit_partial_fill_counterexample :
    aptC3.start_time = mkTs 2024 6 10 14 0
    ∧ (update_appointment_by_phone CLINIC_CONFIG (mkTs 2024 6 9 12 0) [aptC3]
        "0555123456" none (some "16:00") none none).1.success = false
    ∧ (update_appointment_by_phone CLINIC_CONFIG (mkTs 2024 6 9 12 0) [aptC3]
        "0555123456" none (some "16:00") none none).1.message =
        "No changes specified. Please provide new date, time, doctor, or reason."
    ∧ (update_appointment_by_phone CLINIC_CONFIG (mkTs 2024 6 9 12 0) [aptC3]
        "0555123456" none (some "16:00") none none).2 = [aptC3] := by
  decide

def aptC3' : Appointment :=
  { aptC3 with
    start_time := mkTs 2024 6 10 16 0,
    end_time := mkTs 2024 6 10 16 0 + 30 }

/-- C3 amended: the partial-field fill lives one layer up, in the edit
handler (`MCPServer._handle_edit`): given only the new time "16:00" for the
selected appointment at 2024-06-10T14:00, it fills the date half from that
appointment's current start time before calling
`update_appointment_by_phone`, so the edit succeeds and the resulting
appointment is at 2024-06-10 16:00 (the date axis is never lost). -/
theorem edit_partial_fill_amended (cfg : Config) (now : Nat) (hrs : Nat × Nat)
    (hwh : cfg.working_hours 0 = some hrs) (hlo : hrs.1 ≤ 16) (hhi : 16 < hrs.2)
    (hnow : now < mkTs 2024 6 10 14 0) :
    handle_edit cfg now [aptC3] entsC3 =
      ({ mkRes true "Appointment updated successfully" with
          appointment := some aptC3' }, [aptC3'])
    ∧ fmtDate aptC3'.start_time = "2024-06-10"
    ∧ fmtDate aptC3.start_time = "2024-06-10"
    ∧ hourOf aptC3'.start_time = 16 ∧ minuteOf aptC3'.start_time = 0 := by
  have h1 : handle_edit cfg now [aptC3] entsC3 =
      update_appointment_by_phone cfg now [aptC3] "0555123456"
        (some "2024-06-10") (some "16:00") none none := rfl
  have hpred : decide (now < aptC3.start_time) = true :=
    decide_eq_true (show now < aptC3.start_time from hnow)
  have hparse : parse_datetime now "2024-06-10" "16:00" =
      some (mkTs 2024 6 10 16 0) := rfl
  have h2 : update_appointment_by_phone cfg now [aptC3] "0555123456"
      (some "2024-06-10") (some "16:00") none none =
      update_appointment cfg now [aptC3] "a1"
        ⟨some (mkTs 2024 6 10 16 0), none, none⟩ := by
    simp only [update_appointment_by_phone, get_appointments_by_phone]
    simp [List.filter_cons, hpred, hparse, sortByStart, insertByStart, truthyS,
          show aptC3.patient_phone = "0555123456" from rfl,
          show ¬(aptC3.start_time ≤ now) from Nat.not_le.mpr hnow]
    rfl
  have hnotpast : ¬(mkTs 2024 6 10 16 0 < now) := by
    have hle : mkTs 2024 6 10 14 0 ≤ mkTs 2024 6 10 16 0 := by decide
    omega
  have havail : check_availability cfg now [aptC3] (mkTs 2024 6 10 16 0)
      (some aptC3.duration) (some "a1") =
      { available := true, message := "Available", reason := none
        conflicting_appointment_id := none, conflicting_time := none } := by
    simp only [check_availability,
      show findConflict [aptC3] (mkTs 2024 6 10 16 0)
        (mkTs 2024 6 10 16 0 + (some aptC3.duration).getD cfg.appointment_duration)
        (some "a1") = none from rfl,
      show weekdayOf (mkTs 2024 6 10 16 0) = 0 from rfl, hwh]
    rw [if_neg, if_neg hnotpast]
    simp only [Bool.or_eq_true, decide_eq_true_eq, not_or, Nat.not_lt, Nat.not_le]
    constructor
    · simpa using hlo
    · simpa using hhi
  have h3 : update_appointment cfg now [aptC3] "a1"
      ⟨some (mkTs 2024 6 10 16 0), none, none⟩ =
      ({ mkRes true "Appointment updated successfully" with
          appointment := some aptC3' }, [aptC3']) := by
    simp only [update_appointment,
      show findWithIdx (fun a => a.id == "a1") [aptC3] = some (0, aptC3) from rfl,
      havail, finishUpdate, applyFieldUpdates]
    rfl
  exact ⟨h1.trans (h2.trans h3), rfl, rfl, rfl, rfl⟩

/-- C3 amended witness: the concrete instantiation under the spec's clinic
hours (2024-06-10 is a Monday) with "now" the previous day. -/
theorem edit_partial_fill_amended_witness :
    handle_edit CLINIC_CONFIG (mkTs 2024 6 9 12 0) [aptC3] entsC3 =
      ({ mkRes true "Appointment updated successfully" with
          appointment := some aptC3' }, [aptC3'])
    ∧ fmtDate aptC3'.start_time = "2024-06-10"
    ∧ fmtDate aptC3.start_time = "2024-06-10"
    ∧ hourOf aptC3'.start_time = 16 ∧ minuteOf aptC3'.start_time = 0 :=
  edit_partial_fill_amended CLINIC_CONFIG (mkTs 2024 6 9 12 0) (9, 18)
    (by decide) (by decide) (by decide) (by decide)

/-! ## C4, C9, C10: the confirmation gate of `process_message` -/

lemma confirm_gate_cancel_run (o : Oracle) (cfg : Config) (now : Nat)
    (fid : String) (store : List Appointment) (sess : Session) (m : String)
    (haw : sess.awaiting_confirmation = some "cancel")
    (hph : truthyS sess.entities.patient_phone = true)
    (hconf : isConfirming m = true) :
    process_message o cfg now fid store sess m =
      confirmationBranch o cfg now fid store sess m
    ∧ (process_message o cfg now fid store sess m).intent = "cancel"
    ∧ (process_message o cfg now fid store sess m).store =
        (cancel_appointment_by_phone now store
          (sess.entities.patient_phone.getD "")).2
    ∧ (process_message o cfg now fid store sess m).action_result =
        some (cancel_appointment_by_phone now store
          (sess.entities.patient_phone.getD "")).1
    ∧ ∀ s', (process_message o cfg now fid store sess m).session = some s' →
        s'.awaiting_confirmation = none := by
  have htr : truthyS sess.awaiting_confirmation = true := by rw [haw]; rfl
  have hbranch : process_message o cfg now fid store sess m =
      confirmationBranch o cfg now fid store sess m := by
    simp [process_message, htr, hconf]
  refine ⟨hbranch, ?_, ?_, ?_, ?_⟩ <;> rw [hbranch] <;>
    by_cases hs : (cancel_appointment_by_phone now store
        (sess.entities.patient_phone.getD "")).1.success = true <;>
    simp [confirmationBranch, haw, hph, hs]

/-- C4: with a pending confirmation the message is classified against the
fixed affirmative/negative keyword sets before any fresh intent detection
(affirmative wins when both match); with `awaiting_confirmation = "cancel"`
and a known phone, an affirmative message executes the pending cancel in
this turn — the returned intent is "cancel", the store is the result of
`cancel_appointment_by_phone`, and the gate is cleared. -/
theorem confirmation_preemption :
    (∀ m, isConfirming m = true → isCancelingConfirmation m = false)
  ∧ (∀ (o : Oracle) (cfg : Config) (now : Nat) (fid : String)
       (store : List Appointment) (sess : Session) (m : String),
      sess.awaiting_confirmation = some "cancel" →
      truthyS sess.entities.patient_phone = true →
      isConfirming m = true →
      process_message o cfg now fid store sess m =
        confirmationBranch o cfg now fid store sess m
      ∧ (process_message o cfg now fid store sess m).intent = "cancel"
      ∧ (process_message o cfg now fid store sess m).store =
          (cancel_appointment_by_phone now store
            (sess.entities.patient_phone.getD "")).2
      ∧ ∀ s', (process_message o cfg now fid store sess m).session = some s' →
          s'.awaiting_confirmation = none) := by
  constructor
  · intro m h
    simp [isCancelingConfirmation, h]
  · intro o cfg now fid store sess m haw hph hconf
    obtain ⟨h1, h2, h3, _, h5⟩ :=
      confirm_gate_cancel_run o cfg now fid store sess m haw hph hconf
    exact ⟨h1, h2, h3, h5⟩

def oW : Oracle :=
  { extract := fun _ _ _ _ => emptyEntities
    respond := fun _ _ => "r", greeting := "g", goodbyeMsg := "b", helpMsg := "h" }

def sessW : Session :=
  { freshSession with
    awaiting_confirmation := some "cancel",
    entities := { emptyEntities with patient_phone := some "0555123456" } }

def aptW : Appointment :=
  { id := "a1", patient_name := "Bob", patient_phone := "0555123456"
    start_time := mkTs 2026 1 5 10 0, end_time := mkTs 2026 1 5 10 30
    duration := 30, reason := "checkup", doctor_name := none
    created_at := 0, status := "confirmed" }

/-- C4 witness: "yes, book another" (which also matches the booking keyword
table and the negative word "no" inside "another") still executes the
pending cancel. -/
theorem confirmation_preemption_witness :
    process_message oW CLINIC_CONFIG (mkTs 2026 1 1 9 0) "f1" [aptW] sessW
        "yes, book another" =
      confirmationBranch oW CLINIC_CONFIG (mkTs 2026 1 1 9 0) "f1" [aptW] sessW
        "yes, book another"
    ∧ (process_message oW CLINIC_CONFIG (mkTs 2026 1 1 9 0) "f1" [aptW] sessW
        "yes, book another").intent = "cancel"
    ∧ (process_message oW CLINIC_CONFIG (mkTs 2026 1 1 9 0) "f1" [aptW] sessW
        "yes, book another").store =
        (cancel_appointment_by_phone (mkTs 2026 1 1 9 0) [aptW]
          (sessW.entities.patient_phone.getD "")).2
    ∧ ∀ s', (process_message oW CLINIC_CONFIG (mkTs 2026 1 1 9 0) "f1" [aptW]
        sessW "yes, book another").session = some s' →
          s'.awaiting_confirmation = none :=
  confirmation_preemption.2 oW CLINIC_CONFIG (mkTs 2026 1 1 9 0) "f1" [aptW]
    sessW "yes, book another" (by decide) (by decide) (by decide)

/-- C9: confirming a pending cancel or edit without a phone in the
accumulated entities is a silent no-op that keeps the gate armed — the
store is unchanged, no action result is reported, and
`awaiting_confirmation` (and the entities) survive the turn. -/
theorem confirm_without_phone_noop :
    ∀ (o : Oracle) (cfg : Config) (now : Nat) (fid : String)
      (store : List Appointment) (sess : Session) (m : String) (ct : String),
      sess.awaiting_confirmation = some ct →
      (ct = "cancel" ∨ ct = "edit") →
      truthyS sess.entities.patient_phone = false →
      isConfirming m = true →
      (process_message o cfg now fid store sess m).store = store
      ∧ (process_message o cfg now fid store sess m).action_result = none
      ∧ ∃ s', (process_message o cfg now fid store sess m).session = some s'
          ∧ s'.awaiting_confirmation = some ct
          ∧ s'.entities = sess.entities := by
  intro o cfg now fid store sess m ct haw hct hph hconf
  have htr : truthyS sess.awaiting_confirmation = true := by
    rcases hct with rfl | rfl <;> rw [haw] <;> rfl
  have hbranch : process_message o cfg now fid store sess m =
      confirmationBranch o cfg now fid store sess m := by
    simp [process_message, htr, hconf]
  rw [hbranch]
  rcases hct with rfl | rfl <;>
    simp [confirmationBranch, haw, hph]

def sessW9 : Session := { freshSession with awaiting_confirmation := some "cancel" }

/-- C9 witness: "yes" with no phone leaves the store, the gate and the
entities untouched. -/
theorem confirm_without_phone_noop_witness :
    (process_message oW CLINIC_CONFIG (mkTs 2026 1 1 9 0) "f1" [aptW] sessW9
        "yes").store = [aptW]
    ∧ (process_message oW CLINIC_CONFIG (mkTs 2026 1 1 9 0) "f1" [aptW] sessW9
        "yes").action_result = none
    ∧ ∃ s', (process_message oW CLINIC_CONFIG (mkTs 2026 1 1 9 0) "f1" [aptW]
          sessW9 "yes").session = some s'
        ∧ s'.awaiting_confirmation = some "cancel"
        ∧ s'.entities = sessW9.entities :=
  confirm_without_phone_noop oW CLINIC_CONFIG (mkTs 2026 1 1 9 0) "f1" [aptW]
    sessW9 "yes" "cancel" (by decide) (Or.inl rfl) (by decide) (by decide)

/-- C10: affirmative/negative classification is raw substring containment
over the fixed word lists: a message is a confirmation iff its lowercased
text contains some affirmative word as a contiguous substring (so "visit"
confirms via "si" and "booking" via "ok"), it is negative only if it
contains a negative word and no affirmative substring, and with an armed
cancel gate and a known phone any such substring triggers the gated
cancel. -/
theorem substring_confirmation_classification :
    (∀ m : String, isConfirming m = true ↔
      ∃ w ∈ confirm_words, strContains (strLower m) w = true)
  ∧ (∀ m : String, isCancelingConfirmation m = true ↔
      ((∃ w ∈ cancel_words, strContains (strLower m) w = true) ∧
       ¬∃ w ∈ confirm_words, strContains (strLower m) w = true))
  ∧ (∀ (o : Oracle) (cfg : Config) (now : Nat) (fid : String)
      (store : List Appointment) (sess : Session) (m : String),
      sess.awaiting_confirmation = some "cancel" →
      truthyS sess.entities.patient_phone = true →
      (∃ w ∈ confirm_words, strContains (strLower m) w = true) →
      (process_message o cfg now fid store sess m).intent = "cancel"
      ∧ (process_message o cfg now fid store sess m).store =
          (cancel_appointment_by_phone now store
            (sess.entities.patient_phone.getD "")).2) := by
  have h1 : ∀ m : String, isConfirming m = true ↔
      ∃ w ∈ confirm_words, strContains (strLower m) w = true := by
    intro m
    simp [isConfirming, List.any_eq_true]
  refine ⟨h1, ?_, ?_⟩
  · intro m
    rw [isCancelingConfirmation, Bool.and_eq_true, List.any_eq_true]
    rw [Bool.not_eq_true', Bool.eq_false_iff, Ne, h1]
  · intro o cfg now fid store sess m haw hph hsub
    obtain ⟨_, h2, h3, _, _⟩ := confirm_gate_cancel_run o cfg now fid store sess m
      haw hph ((h1 m).mpr hsub)
    exact ⟨h2, h3⟩

/-- C10 witness: "visit" confirms via the substring "si", "booking" via
"ok", and "visit" triggers the armed cancel. -/
theorem substring_confirmation_classification_witness :
    isConfirming "visit" = true
    ∧ isConfirming "booking" = true
    ∧ (process_message oW CLINIC_CONFIG (mkTs 2026 1 1 9 0) "f1" [aptW] sessW
        "visit").intent = "cancel"
    ∧ (process_message oW CLINIC_CONFIG (mkTs 2026 1 1 9 0) "f1" [aptW] sessW
        "visit").store =
        (cancel_appointment_by_phone (mkTs 2026 1 1 9 0) [aptW]
          (sessW.entities.patient_phone.getD "")).2 := by
  refine ⟨?_, ?_, ?_, ?_⟩
  · exact (substring_confirmation_classification.1 "visit").mpr
      ⟨"si", by decide, by decide⟩
  · exact (substring_confirmation_classification.1 "booking").mpr
      ⟨"ok", by decide, by decide⟩
  · exact (substring_confirmation_classification.2.2 oW CLINIC_CONFIG
      (mkTs 2026 1 1 9 0) "f1" [aptW] sessW "visit" (by decide) (by decide)
      ⟨"si", by decide, by decide⟩).1
  · exact (substring_confirmation_classification.2.2 oW CLINIC_CONFIG
      (mkTs 2026 1 1 9 0) "f1" [aptW] sessW "visit" (by decide) (by decide)
      ⟨"si", by decide, by decide⟩).2

/-! ## C5: history bound -/

def oF : Oracle :=
  { extract := fun _ _ _ _ =>
      { emptyEntities with patient_phone := some "0555123456" }
    respond := fun _ _ => "r", greeting := "g", goodbyeMsg := "b", helpMsg := "h" }

/-- C5 counterexample: five unclear turns fill the history to 10 entries,
"cancel it" arms the cancel gate (the main path truncates back to 10), and
the affirmative turn runs the confirmation branch, which appends the
user/assistant pair without truncating — 12 entries after the turn. -/
theorem history_bound_counterexample :
    (runMsgs oF CLINIC_CONFIG (mkTs 2026 1 1 9 0) "f1" ([aptW], freshSession)
        ["zzz", "zzz", "zzz", "zzz", "zzz", "cancel it", "yes"]).2.history.length
      = 12
    ∧ ¬((runMsgs oF CLINIC_CONFIG (mkTs 2026 1 1 9 0) "f1" ([aptW], freshSession)
        ["zzz", "zzz", "zzz", "zzz", "zzz", "cancel it", "yes"]).2.history.length
      ≤ 10) := by
  decide

lemma confirmationBranch_history (o : Oracle) (cfg : Config) (now : Nat)
    (fid : String) (store : List Appointment) (sess : Session) (m : String)
    (s' : Session)
    (h : (confirmationBranch o cfg now fid store sess m).session = some s') :
    s'.history.length = sess.history.length + 2 := by
  simp only [confirmationBranch] at h
  repeat' split at h
  all_goals
    injection h with h
    subst h
    first
    | (split <;> simp)
    | simp

lemma rejectionBranch_history (store : List Appointment) (sess : Session)
    (m : String) (s' : Session)
    (h : (rejectionBranch store sess m).session = some s') :
    s'.history.length = sess.history.length + 2 := by
  simp only [rejectionBranch] at h
  injection h with h
  subst h
  simp

lemma editCollectBranch_history (o : Oracle) (store : List Appointment)
    (sess : Session) (m : String) (s' : Session)
    (h : (editCollectBranch o store sess m).session = some s') :
    s'.history.length = sess.history.length + 2 := by
  simp only [editCollectBranch] at h
  repeat' split at h
  all_goals
    injection h with h
    subst h
    simp

lemma mainAction_history (store : List Appointment) (sess2 : Session)
    (intent : Intent) :
    (mainAction store sess2 intent).2.history = sess2.history := by
  simp only [mainAction]
  repeat' split
  all_goals rfl

lemma mainBranch_history (o : Oracle) (cfg : Config) (now : Nat) (fid : String)
    (store : List Appointment) (sess : Session) (m : String) (s' : Session)
    (h : (mainBranch o cfg now fid store sess m).session = some s') :
    s'.history.length ≤ max (sess.history.length + 2) 10 := by
  simp only [mainBranch] at h
  generalize effectiveIntent sess m = i at h
  repeat' split at h
  all_goals first
    | (injection h with h; subst h;
       simp only [lastN, List.length_drop, List.length_append, List.length_cons,
         List.length_nil, mainAction_history]
       omega)
    | injection h

/-- C5 amended: the 10-entry sliding window is applied only on turns that
complete the main detection flow; turns returning early from the
confirmation-gate, rejection and edit-collection branches append the
user/assistant pair without truncating, so after any turn the history
holds at most `max (previous + 2) 10` entries (and can exceed 10). -/
theorem history_window_amended :
    ∀ (o : Oracle) (cfg : Config) (now : Nat) (fid : String)
      (store : List Appointment) (sess : Session) (m : String) (s' : Session),
      (process_message o cfg now fid store sess m).session = some s' →
      s'.history.length ≤ max (sess.history.length + 2) 10 := by
  intro o cfg now fid store sess m s' h
  unfold process_message at h
  split at h
  · have := confirmationBranch_history o cfg now fid store sess m s' h
    omega
  · split at h
    · have := rejectionBranch_history store sess m s' h
      omega
    · split at h
      · have := editCollectBranch_history o store sess m s' h
        omega
      · exact mainBranch_history o cfg now fid store sess m s' h

/-- C5 amended witness: the confirmation-gate turn of the C9 scenario
appends exactly two entries. -/
theorem history_window_amended_witness :
    ({ sessW9 with history := [("user", "yes"), ("assistant", "r")] } :
        Session).history.length ≤ max (sessW9.history.length + 2) 10 :=
  history_window_amended oW CLINIC_CONFIG (mkTs 2026 1 1 9 0) "f1" [aptW]
    sessW9 "yes" _ (by decide)
